import Mathlib

/-!
Verification development for the drug-sales visualization script
(`statistik_deskriptif.py`). The script parses an uploaded CSV/Excel table,
resolves a date column, renders one of four chart types for a user-chosen
column selection, and packages the rendered chart plus a description into a
PDF and a Word document.

Modelling conventions:
* Python strings are modelled as `List Char` (`Str`); `len` is `List.length`.
* Table cell values are modelled as integers (`Int`), dates as a record with a
  `year` field (`.index.year` reads that field).
* The matplotlib figure object (`Chart`) is modelled by the data it displays;
  `fig.savefig(..., dpi=300)` is a deterministic rasterization of that data,
  modelled by `savefig`.
* Fallible library calls are modelled by explicit success flags / `Option`
  fault parameters; the Streamlit UI surface is modelled as the list of
  effects (`Effect`) the script emits during one interaction.
-/

/-- Python strings modelled as lists of characters. -/
abbrev Str := List Char

/-- Coerce a Lean string literal into the `Str` model. -/
def str (s : String) : Str := s.data

/-- A calendar date; `pd.to_datetime` produces these, and `.year` is the
field pandas exposes on a datetime index. -/
structure Date where
  year : Int
  month : Nat
  day : Nat
deriving DecidableEq, Repr

/-- The in-memory table: a date index plus named integer columns, each column
aligned positionally with the index (a pandas `DataFrame` after
`set_index`). -/
structure Table where
  index : List Date
  cols : List (String × List Int)
deriving DecidableEq, Repr

/-- Column access `df[drug]`: the values of the named column. -/
def Table.getCol (t : Table) (c : String) : List Int :=
  (t.cols.lookup c).getD []

/-! ### PDF description word-wrap (create_pdf_report, lines 118-132)

The source splits the description with Python `str.split()` (split on any
whitespace run, dropping empty pieces) and then greedily packs words into
lines: `if len(line + word) + 1 <= 80: line += word + " " else:
lines.append(line); line = word + " "`, finally appending the last line if
it is non-empty. -/

/-- Helper for `splitWs`: scans the characters, accumulating the current
word reversed in `cur`. -/
def splitWsAux : List Char → List Char → List Str
  | [], cur => if cur = [] then [] else [cur.reverse]
  | c :: rest, cur =>
    if c.isWhitespace then
      if cur = [] then splitWsAux rest [] else cur.reverse :: splitWsAux rest []
    else
      splitWsAux rest (c :: cur)

/-- Model of Python `description.split()`: split on whitespace runs, no empty words. -/
def splitWs (s : Str) : List Str := splitWsAux s []

/-- One iteration of the source's wrapping loop over `words`: state is
`(lines, line)`, the emitted lines and the line under construction (which
carries a trailing space per word, exactly as the source builds it). -/
def wrapStep (acc : List Str × Str) (word : Str) : List Str × Str :=
  if (acc.2 ++ word).length + 1 ≤ 80 then
    (acc.1, acc.2 ++ word ++ [' '])
  else
    (acc.1 ++ [acc.2], word ++ [' '])

/-- The source's wrapping loop: fold `wrapStep` over the words, then
`if line: lines.append(line)`. -/
def wrapWords (words : List Str) : List Str :=
  let r := words.foldl wrapStep ([], [])
  if r.2 = [] then r.1 else r.1 ++ [r.2]

/-- Lines 118-129 of `create_pdf_report`: split the description and wrap. -/
def wrapDescription (description : Str) : List Str :=
  wrapWords (splitWs description)

/-! ### Spec-side greedy packing (for the refinement claim about the wrap)

Modelled from the spec: "words are taken in order and appended to the
current line as long as the line plus the next word (plus one separator)
stays within the 80-character limit, otherwise a new line is started with
that word". A line is a list of words; rendering a line appends one
separator space after each word, as the code's lines do. -/

/-- Render a packed line the way the code stores lines: every word followed
by a single separator space. -/
def renderLine (ws : List Str) : Str := (ws.map (fun w => w ++ [' '])).flatten

/-- Spec-side greedy step on word lists: append the word when the rendered
line plus the word plus one separator stays within 80 characters. -/
def packStep (acc : List (List Str) × List Str) (w : Str) : List (List Str) × List Str :=
  if (renderLine acc.2).length + w.length + 1 ≤ 80 then
    (acc.1, acc.2 ++ [w])
  else
    (acc.1 ++ [acc.2], [w])

/-- Spec-side whitespace-greedy packing at width 80. -/
def greedyPack (words : List Str) : List (List Str) :=
  let r := words.foldl packStep ([], [])
  if r.2 = [] then r.1 else r.1 ++ [r.2]

/-! ### Chart renderers (lines 33-98)

A matplotlib figure is identified with the data it draws. Each renderer is
a pure function of `(Table, Selection)`. -/

/-- Pearson sufficient statistic for a pair of columns `(x, y)`:
`(n·Σxy − Σx·Σy, n·Σx² − (Σx)², n·Σy² − (Σy)²)`. The annotated cell value
of `df[selected_drugs].corr()` is the Pearson coefficient
`r = num / sqrt(varx · vary)`, a deterministic function of this triple;
the triple is kept exact (integers) rather than as a float. -/
def corrStat (xs ys : List Int) : Int × Int × Int :=
  let n : Int := xs.length
  (n * (xs.zip ys).foldl (fun a p => a + p.1 * p.2) 0 - xs.sum * ys.sum,
   n * (xs.map (fun v => v * v)).sum - xs.sum * xs.sum,
   n * (ys.map (fun v => v * v)).sum - ys.sum * ys.sum)

/-- Model of `df[selected_drugs].corr()`: the pairwise Pearson matrix over the
selected columns (each entry as its exact sufficient statistic). -/
def corrMatrix (df : Table) (selected_drugs : List String) :
    List (List (Int × Int × Int)) :=
  selected_drugs.map fun a =>
    selected_drugs.map fun b => corrStat (df.getCol a) (df.getCol b)

/-- Model of `df[selected_drugs].melt(...)`: stack the selected columns column-by-
column into (category, value) pairs. -/
def melt (df : Table) (selected_drugs : List String) : List (String × Int) :=
  selected_drugs.flatMap fun c => (df.getCol c).map fun v => (c, v)

/-- Accumulate `v` into the year bucket `y` of a running year→sum
association list (appending a new bucket if the year is unseen). -/
def insertAdd (acc : List (Int × Int)) (y : Int) (v : Int) : List (Int × Int) :=
  match acc with
  | [] => [(y, v)]
  | (y', s) :: rest =>
    if y' = y then (y', s + v) :: rest else (y', s) :: insertAdd rest y v

/-- Model of `df_yearly.groupby('Year')[c].sum()` for one column, fed the
`(date, value)` rows of that column: per-year sums keyed by
`index.year`. (pandas additionally sorts the year keys; only the per-year
values matter to the claims below, so bucket order is left as
first-seen.) -/
def groupSumByYear (rows : List (Date × Int)) : List (Int × Int) :=
  rows.foldl (fun acc r => insertAdd acc r.1.year r.2) []

/-- The rendered figure, identified with the data it displays. -/
inductive Chart where
  /-- One line per selected column: x the date index, y the values. -/
  | timeSeries (series : List (String × List (Date × Int)))
  /-- One box per category over the melted (category, value) pairs. -/
  | boxPlot (pairs : List (String × Int))
  /-- Annotated pairwise Pearson correlation cells. -/
  | heatmap (cells : List (List (Int × Int × Int)))
  /-- Grouped bars: per selected column, the per-year sums. -/
  | annualSales (bars : List (String × List (Int × Int)))
deriving DecidableEq, Repr

/-- Lines 33-46: one `ax.plot(df.index, df[drug], label=drug)` per selected
drug, in selection order. -/
def create_time_series_plot (df : Table) (selected_drugs : List String) : Chart :=
  .timeSeries (selected_drugs.map fun drug => (drug, df.index.zip (df.getCol drug)))

/-- Lines 49-64: melt the selected columns and draw one box per category. -/
def create_boxplot (df : Table) (selected_drugs : List String) : Chart :=
  .boxPlot (melt df selected_drugs)

/-- Lines 67-77: the correlation matrix of the selected columns, drawn as
an annotated heatmap. -/
def create_heatmap (df : Table) (selected_drugs : List String) : Chart :=
  .heatmap (corrMatrix df selected_drugs)

/-- Lines 80-98: group the index by `index.year`, sum each selected column
per year, draw grouped bars. -/
def create_annual_sales (df : Table) (selected_drugs : List String) : Chart :=
  .annualSales (selected_drugs.map fun drug =>
    (drug, groupSumByYear (df.index.zip (df.getCol drug))))

/-- The bar drawn by an annual-sales chart for column `c` and year `y`
(0 when the chart has no such bar). -/
def barValue (ch : Chart) (c : String) (y : Int) : Int :=
  match ch with
  | .annualSales bars => (((bars.lookup c).getD []).lookup y).getD 0
  | _ => 0

/-! ### Report packagers (lines 101-173)

`fig.savefig(tmp, format='png', dpi=300, bbox_inches='tight')` rasterizes
the figure; the PNG bytes are a deterministic function of the figure data
and the dpi, so the image payload is modelled by that pair. Neither
packager writes to `fig`; each model returns the figure it was handed so
that non-mutation is an explicit part of the signature. -/

/-- A rasterized PNG payload: determined by the figure and the dpi. -/
structure PngImage where
  source : Chart
  dpi : Nat
deriving DecidableEq, Repr

/-- Model of `fig.savefig(..., format='png', dpi=300, bbox_inches='tight')`. -/
def savefig (fig : Chart) : PngImage := ⟨fig, 300⟩

/-- The single-page PDF: fixed title, "Description:" label, the wrapped
description lines, the embedded chart image. -/
structure PdfDoc where
  title : Str
  descLabel : Str
  descLines : List Str
  image : PngImage
deriving DecidableEq, Repr

/-- Lines 101-148 `create_pdf_report`: returns the byte buffer (its
document content) and the figure as the call leaves it. -/
def create_pdf_report (fig : Chart) (description : Str) : PdfDoc × Chart :=
  (⟨str "Drug Sales Data Visualization Report",
    str "Description:",
    wrapDescription description,
    savefig fig⟩,
   fig)

/-- The Word document: headings, the description paragraph verbatim, the
embedded chart image at 6-inch width. -/
structure DocxDoc where
  title : Str
  descHeading : Str
  descParagraph : Str
  image : PngImage
  imageWidthInches : Nat
deriving DecidableEq, Repr

/-- Lines 151-173 `create_word_report`: returns the byte buffer (its
document content) and the figure as the call leaves it. -/
def create_word_report (fig : Chart) (description : Str) : DocxDoc × Chart :=
  (⟨str "Drug Sales Data Visualization Report",
    str "Description:",
    description,
    savefig fig,
    6⟩,
   fig)

/-! ### Temp-file lifecycle of the packagers (lines 136-145 and 158-170)

Both packagers write the PNG to `tempfile.NamedTemporaryFile(suffix='.png',
delete=False)`, embed it (`c.drawImage` / `doc.add_picture`, either of which
can raise), and only afterwards reach `os.unlink(temp_filename)`; there is
no try/finally around the embedding. The lifecycle is modelled as the list
of filesystem events the call performs plus whether it raised. -/

inductive FsEvent where
  | createTemp
  | unlinkTemp
deriving DecidableEq, Repr

/-- Filesystem behaviour of `create_pdf_report`: `savefig` creates the temp
file; if `c.drawImage` succeeds, `c.save` then `os.unlink` run; if it
raises, the exception propagates before `os.unlink` is reached. Returns
(events performed, whether the call raised). -/
def pdfReportFsRun (drawImageOk : Bool) : List FsEvent × Bool :=
  if drawImageOk then ([.createTemp, .unlinkTemp], false)
  else ([.createTemp], true)

/-- Filesystem behaviour of `create_word_report`: `savefig` creates the temp
file; if `doc.add_picture` succeeds, `doc.save` then `os.unlink` run; if it
raises, the exception propagates before `os.unlink` is reached. -/
def docxReportFsRun (addPictureOk : Bool) : List FsEvent × Bool :=
  if addPictureOk then ([.createTemp, .unlinkTemp], false)
  else ([.createTemp], true)

/-- A temp file survives the call when it was created more often than it
was unlinked. -/
def tempFileRemains (evs : List FsEvent) : Bool :=
  evs.count .unlinkTemp < evs.count .createTemp

/-! ### Upload dispatch (lines 27 and 183-187)

`st.file_uploader(..., type=["csv", "xlsx", "xls"])` admits files of those
inferred types; the handler then reads the whole upload with
`pd.read_csv(uploaded_file)` when `uploaded_file.name.endswith('.csv')` and
with `pd.read_excel(uploaded_file)` otherwise. -/

inductive ReaderKind where
  | csv
  | excel
deriving DecidableEq, Repr

/-- The uploader's accept filter: `.csv`, `.xlsx` or `.xls`. -/
def acceptedUpload (name : Str) : Bool :=
  (str ".csv").isSuffixOf name || (str ".xlsx").isSuffixOf name
    || (str ".xls").isSuffixOf name

/-- Lines 184-187: CSV reader iff the name ends in `.csv`, Excel reader for
every other accepted upload. Either reader consumes the whole in-memory
upload. -/
def chooseReader (name : Str) : ReaderKind :=
  if (str ".csv").isSuffixOf name then .csv else .excel

/-! ### Date-column resolution and loading (lines 193-215) -/

/-- Lines 193-215: `'datum'` if present, else `'date'`, else the first
column together with a warning (`df.columns[0]` raises on an empty column
list, surfacing on the script's exception path, hence `none`). The flag
records whether the first-column warning is emitted. -/
def resolveDateColumn (cols : List String) : Option (String × Bool) :=
  if "datum" ∈ cols then some ("datum", false)
  else if "date" ∈ cols then some ("date", false)
  else
    match cols with
    | [] => none
    | c :: _ => some (c, true)

/-- The loader's result: the resolved date column, whether the fallback
warning fired, the parsed index, and the category columns. -/
structure Loaded where
  dateCol : String
  warned : Bool
  index : List Date
  categories : List String
deriving DecidableEq, Repr

/-- Lines 193-215: resolve the date column, run `pd.to_datetime` over its
raw cells (any parse failure raises, surfacing on the script's exception
path, hence `none`), set it as the index (which drops it from the
columns), and keep the remaining columns as drug categories. `toDT`
abstracts `pd.to_datetime` on a single cell; `colOf` gives a column's raw
cells. -/
def loadTable (toDT : String → Option Date) (names : List String)
    (colOf : String → List String) : Option Loaded :=
  (resolveDateColumn names).bind fun p =>
    ((colOf p.1).mapM toDT).map fun idx => ⟨p.1, p.2, idx, names.erase p.1⟩

/-! ### One interaction of the script body (lines 181-282)

The whole script body re-runs per interaction inside a single
`try: ... except Exception as e: st.error(f"Error processing file: {e}")`.
The UI surface is modelled as the ordered list of effects the body emits.
Library calls that can raise (`pd.read_csv`/`pd.read_excel`/
`pd.to_datetime`, the renderer, the two packagers) are given `Option Str`
fault parameters: `some e` means that call raises an exception whose text
is `e`. -/

inductive ChartType where
  | timeSeries
  | boxPlot
  | heatmap
  | annualSales
deriving DecidableEq, Repr

/-- A user-visible effect emitted during one interaction. -/
inductive Effect where
  /-- Model of `st.error(msg)`. -/
  | showError (msg : Str)
  /-- Model of `st.warning(msg)`. -/
  | showWarning (msg : Str)
  /-- Model of `st.pyplot(fig)`. -/
  | showChart (fig : Chart)
  /-- Model of `st.markdown(link)` for a download link with the given filename. -/
  | downloadLink (filename : Str)
deriving DecidableEq, Repr

/-- Which fallible calls raise during this interaction, and with what
exception text. -/
structure Faults where
  loadError : Option Str
  renderError : Option Str
  pdfError : Option Str
  docxError : Option Str
deriving DecidableEq, Repr

/-- The fault-free interaction. -/
def Faults.none : Faults := ⟨Option.none, Option.none, Option.none, Option.none⟩

/-- Line 246's validation message. -/
def selectMsg : Str := str "Please select at least one drug category."

/-- Line 211's fallback warning. -/
def warnMsg : Str := str "No explicit date column found. Assuming first column is for dates."

/-- Line 282's catch-all message around the exception text `e`. -/
def errMsg (e : Str) : Str := str "Error processing file: " ++ e

/-- Everything one interaction produced. -/
structure Outcome where
  /-- The UI effects, in emission order. -/
  effects : List Effect
  /-- The renderers that were invoked (by chart type). -/
  renderersCalled : List ChartType
  /-- The figure produced, if any renderer ran to completion. -/
  chart : Option Chart
  /-- The PDF byte buffer, if `create_pdf_report` returned. -/
  pdfBuffer : Option PdfDoc
  /-- The Word byte buffer, if `create_word_report` returned. -/
  docxBuffer : Option DocxDoc
deriving DecidableEq, Repr

/-- Lines 251-258's dispatch on the selectbox value. -/
def dispatchRenderer (ct : ChartType) (df : Table) (sel : List String) : Chart :=
  match ct with
  | .timeSeries => create_time_series_plot df sel
  | .boxPlot => create_boxplot df sel
  | .heatmap => create_heatmap df sel
  | .annualSales => create_annual_sales df sel

/-- Lines 181-282, one interaction with an uploaded file: load and parse
(any exception → catch-all), emit the fallback warning when no
`datum`/`date` column was found, and on a button press either validate the
selection (line 245) or render, display, package and link the reports.
Each raising call appends the catch-all error and stops the body. -/
def runInteraction (df : Table) (noDateCol : Bool) (buttonPressed : Bool)
    (sel : List String) (ct : ChartType) (desc : Str) (f : Faults) : Outcome :=
  match f.loadError with
  | some e => ⟨[.showError (errMsg e)], [], none, none, none⟩
  | none =>
    let warns : List Effect := if noDateCol then [.showWarning warnMsg] else []
    if buttonPressed = false then ⟨warns, [], none, none, none⟩
    else if sel = [] then ⟨warns ++ [.showError selectMsg], [], none, none, none⟩
    else
      match f.renderError with
      | some e => ⟨warns ++ [.showError (errMsg e)], [ct], none, none, none⟩
      | none =>
        let fig := dispatchRenderer ct df sel
        let shown := warns ++ [.showChart fig]
        match f.pdfError with
        | some e => ⟨shown ++ [.showError (errMsg e)], [ct], some fig, none, none⟩
        | none =>
          let pdf := (create_pdf_report fig desc).1
          match f.docxError with
          | some e => ⟨shown ++ [.showError (errMsg e)], [ct], some fig, some pdf, none⟩
          | none =>
            let docx := (create_word_report fig desc).1
            ⟨shown ++ [.downloadLink (str "drug_sales_report.pdf"),
                       .downloadLink (str "drug_sales_report.docx")],
             [ct], some fig, some pdf, some docx⟩

/-- A small concrete table (24 months across two years, two drug columns)
used to instantiate the theorems below on closed inputs. -/
def dfW : Table :=
  ⟨[⟨2014, 1, 1⟩, ⟨2014, 6, 1⟩, ⟨2015, 1, 1⟩, ⟨2015, 6, 1⟩],
   [("DrugA", [1, 2, 3, 4]), ("DrugB", [5, 6, 7, 8])]⟩

/-! ## Theorems -/

/-- C1: with a table loaded and the generate button pressed on an empty
selection, the interaction shows the validation error, invokes no renderer,
and produces neither a chart nor a PDF nor a Word buffer. -/
theorem empty_selection_short_circuits (df : Table) (noDateCol : Bool)
    (ct : ChartType) (desc : Str) (f : Faults) (hload : f.loadError = none) :
    Effect.showError selectMsg ∈ (runInteraction df noDateCol true [] ct desc f).effects
    ∧ (runInteraction df noDateCol true [] ct desc f).renderersCalled = []
    ∧ (runInteraction df noDateCol true [] ct desc f).chart = none
    ∧ (runInteraction df noDateCol true [] ct desc f).pdfBuffer = none
    ∧ (runInteraction df noDateCol true [] ct desc f).docxBuffer = none := by
  cases noDateCol <;> simp [runInteraction, hload]

/-- C1 witness: the empty-selection interaction on the concrete table. -/
theorem empty_selection_short_circuits_witness :
    (Faults.none.loadError = none)
    ∧ (Effect.showError selectMsg
        ∈ (runInteraction dfW false true [] .timeSeries (str "d") Faults.none).effects
      ∧ (runInteraction dfW false true [] .timeSeries (str "d") Faults.none).renderersCalled = []
      ∧ (runInteraction dfW false true [] .timeSeries (str "d") Faults.none).chart = none
      ∧ (runInteraction dfW false true [] .timeSeries (str "d") Faults.none).pdfBuffer = none
      ∧ (runInteraction dfW false true [] .timeSeries (str "d") Faults.none).docxBuffer = none) :=
  ⟨rfl, empty_selection_short_circuits dfW false .timeSeries (str "d") Faults.none rfl⟩

/-- C4: when embedding raises, `os.unlink` is never reached — the packagers
delete the temp file only on the success path, so the temp file survives a
failed embedding (and is deleted on a successful one). -/
theorem temp_file_survives_failed_embedding :
    (pdfReportFsRun false).2 = true
    ∧ tempFileRemains (pdfReportFsRun false).1 = true
    ∧ (docxReportFsRun false).2 = true
    ∧ tempFileRemains (docxReportFsRun false).1 = true
    ∧ tempFileRemains (pdfReportFsRun true).1 = false
    ∧ tempFileRemains (docxReportFsRun true).1 = false := by
  decide

/-- C7: the PDF packager hands the figure back unchanged, the Word packager
run on that same figure also leaves it unchanged, and the two documents
embed identical image payloads (the same figure rasterized at the same
dpi). -/
theorem reports_preserve_chart_and_share_payload (fig : Chart) (d : Str) :
    (create_pdf_report fig d).2 = fig
    ∧ (create_word_report (create_pdf_report fig d).2 d).2 = fig
    ∧ (create_pdf_report fig d).1.image
        = (create_word_report (create_pdf_report fig d).2 d).1.image
    ∧ (create_pdf_report fig d).1.image = savefig fig :=
  ⟨rfl, rfl, rfl, rfl⟩

/-- C8: the four renderers are deterministic (equal inputs give equal
charts), and each one's chart holds exactly its chart type's data: the raw
selected series for the time series, the melted raw pairs for the box plot,
the pairwise Pearson statistics for the heatmap, and the per-year sums for
the annual sales — no other statistic is computed. -/
theorem renderers_deterministic (df df' : Table) (sel sel' : List String)
    (hdf : df = df') (hsel : sel = sel') :
    (create_time_series_plot df sel = create_time_series_plot df' sel'
     ∧ create_boxplot df sel = create_boxplot df' sel'
     ∧ create_heatmap df sel = create_heatmap df' sel'
     ∧ create_annual_sales df sel = create_annual_sales df' sel')
    ∧ create_time_series_plot df sel
        = .timeSeries (sel.map fun c => (c, df.index.zip (df.getCol c)))
    ∧ create_boxplot df sel = .boxPlot (melt df sel)
    ∧ create_heatmap df sel = .heatmap (corrMatrix df sel)
    ∧ create_annual_sales df sel
        = .annualSales (sel.map fun c => (c, groupSumByYear (df.index.zip (df.getCol c)))) := by
  subst hdf; subst hsel
  exact ⟨⟨rfl, rfl, rfl, rfl⟩, rfl, rfl, rfl, rfl⟩

/-- C8 witness: both determinism and the payload characterizations at the
concrete table and selection. -/
theorem renderers_deterministic_witness :
    (dfW = dfW) ∧ (["DrugA", "DrugB"] = ["DrugA", "DrugB"])
    ∧ ((create_time_series_plot dfW ["DrugA", "DrugB"]
          = create_time_series_plot dfW ["DrugA", "DrugB"]
        ∧ create_boxplot dfW ["DrugA", "DrugB"] = create_boxplot dfW ["DrugA", "DrugB"]
        ∧ create_heatmap dfW ["DrugA", "DrugB"] = create_heatmap dfW ["DrugA", "DrugB"]
        ∧ create_annual_sales dfW ["DrugA", "DrugB"]
            = create_annual_sales dfW ["DrugA", "DrugB"])
       ∧ create_time_series_plot dfW ["DrugA", "DrugB"]
           = .timeSeries (["DrugA", "DrugB"].map fun c => (c, dfW.index.zip (dfW.getCol c)))
       ∧ create_boxplot dfW ["DrugA", "DrugB"] = .boxPlot (melt dfW ["DrugA", "DrugB"])
       ∧ create_heatmap dfW ["DrugA", "DrugB"] = .heatmap (corrMatrix dfW ["DrugA", "DrugB"])
       ∧ create_annual_sales dfW ["DrugA", "DrugB"]
           = .annualSales (["DrugA", "DrugB"].map fun c =>
               (c, groupSumByYear (dfW.index.zip (dfW.getCol c))))) :=
  ⟨rfl, rfl, renderers_deterministic dfW dfW ["DrugA", "DrugB"] ["DrugA", "DrugB"] rfl rfl⟩

/-- C9: on an accepted upload, the handler uses the CSV reader exactly when
the filename ends in `.csv`, and the Excel reader for every other accepted
filename. -/
theorem upload_reader_dispatch (name : Str) (_hacc : acceptedUpload name = true) :
    ((str ".csv").isSuffixOf name = true → chooseReader name = .csv)
    ∧ ((str ".csv").isSuffixOf name = false → chooseReader name = .excel) := by
  refine ⟨fun h => ?_, fun h => ?_⟩ <;> simp [chooseReader, h]

/-- C9 witness: a `.csv` name goes to the CSV reader and an `.xlsx` name to
the Excel reader. -/
theorem upload_reader_dispatch_witness :
    (acceptedUpload (str "sales.csv") = true)
    ∧ (((str ".csv").isSuffixOf (str "sales.csv") = true
          → chooseReader (str "sales.csv") = .csv)
       ∧ ((str ".csv").isSuffixOf (str "sales.csv") = false
          → chooseReader (str "sales.csv") = .excel))
    ∧ (acceptedUpload (str "sales.xlsx") = true)
    ∧ (((str ".csv").isSuffixOf (str "sales.xlsx") = true
          → chooseReader (str "sales.xlsx") = .csv)
       ∧ ((str ".csv").isSuffixOf (str "sales.xlsx") = false
          → chooseReader (str "sales.xlsx") = .excel)) :=
  ⟨by decide, upload_reader_dispatch (str "sales.csv") (by decide),
   by decide, upload_reader_dispatch (str "sales.xlsx") (by decide)⟩

/-- Association-list lookup at the key just consed on. -/
theorem lookup_cons_self {α β : Type} [BEq α] [LawfulBEq α] (a : α) (v : β)
    (l : List (α × β)) : List.lookup a ((a, v) :: l) = some v := by
  simp [List.lookup]

/-- Association-list lookup skips a head with a different key. -/
theorem lookup_cons_of_ne {α β : Type} [BEq α] [LawfulBEq α] {a k : α} (v : β)
    (l : List (α × β)) (h : a ≠ k) : List.lookup a ((k, v) :: l) = List.lookup a l := by
  have hb : (a == k) = false := beq_eq_false_iff_ne.mpr h
  simp [List.lookup, hb]

/-- Looking up a year in an `insertAdd`-updated bucket list adds `v` to the
bucket `k` and leaves every other bucket unchanged. -/
theorem lookup_insertAdd (acc : List (Int × Int)) (k v y : Int) :
    ((insertAdd acc k v).lookup y).getD 0
      = if y = k then (acc.lookup y).getD 0 + v else (acc.lookup y).getD 0 := by
  induction acc with
  | nil =>
    by_cases h : y = k
    · subst h; simp [insertAdd, lookup_cons_self]
    · rw [show insertAdd [] k v = [(k, v)] from rfl, lookup_cons_of_ne _ _ h]
      simp [List.lookup, h]
  | cons p rest ih =>
    obtain ⟨y', s⟩ := p
    by_cases hk : y' = k
    · subst hk
      by_cases hy : y = y'
      · subst hy
        simp [insertAdd, lookup_cons_self]
      · simp [insertAdd, lookup_cons_of_ne _ _ hy, hy]
    · by_cases hy : y = y'
      · subst hy
        simp [insertAdd, hk, lookup_cons_self]
      · simp [insertAdd, hk, lookup_cons_of_ne _ _ hy, ih]

/-- Folding rows into year buckets: each bucket's value is the starting
bucket value plus the sum of the rows landing in that year. -/
theorem lookup_foldl_insertAdd (rows : List (Date × Int)) (acc : List (Int × Int)) (y : Int) :
    ((rows.foldl (fun a r => insertAdd a r.1.year r.2) acc).lookup y).getD 0
      = (acc.lookup y).getD 0
          + ((rows.filter (fun r => r.1.year = y)).map Prod.snd).sum := by
  induction rows generalizing acc with
  | nil => simp
  | cons r rest ih =>
    by_cases h : r.1.year = y
    · have h' : y = r.1.year := h.symm
      simp only [List.foldl_cons, ih, lookup_insertAdd, if_pos h', List.filter_cons]
      simp [h]
      omega
    · have h' : ¬y = r.1.year := fun hy => h hy.symm
      simp only [List.foldl_cons, ih, lookup_insertAdd, if_neg h', List.filter_cons]
      simp [h]

/-- The per-year bucket produced by `groupSumByYear` is exactly the sum of
the rows of that year. -/
theorem lookup_groupSumByYear (rows : List (Date × Int)) (y : Int) :
    (((groupSumByYear rows).lookup y).getD 0)
      = ((rows.filter (fun r => r.1.year = y)).map Prod.snd).sum := by
  simpa [groupSumByYear] using lookup_foldl_insertAdd rows [] y

/-- Looking up a key in a map-built association list whose values are
computed by `f` from the key. -/
theorem lookup_map_pair {β : Type} (f : String → β) (l : List String) (c : String)
    (h : c ∈ l) : (l.map fun x => (x, f x)).lookup c = some (f c) := by
  induction l with
  | nil => cases h
  | cons a as ih =>
    rcases List.mem_cons.mp h with rfl | h'
    · simp [lookup_cons_self]
    · by_cases hac : c = a
      · subst hac; simp [lookup_cons_self]
      · simp only [List.map_cons]
        rw [lookup_cons_of_ne _ _ hac]
        exact ih h'

/-- C2: for a selected column and a year occurring in the index, the
annual-sales bar equals the sum of that column over exactly the rows whose
index falls in that year. -/
theorem annual_sales_bar_eq_year_row_sum (df : Table) (sel : List String)
    (c : String) (y : Int) (hc : c ∈ sel) (_hy : y ∈ df.index.map Date.year) :
    barValue (create_annual_sales df sel) c y
      = (((df.index.zip (df.getCol c)).filter (fun r => r.1.year = y)).map Prod.snd).sum := by
  have hb : barValue (create_annual_sales df sel) c y
      = (((groupSumByYear (df.index.zip (df.getCol c))).lookup y).getD 0) := by
    simp only [create_annual_sales, barValue]
    rw [lookup_map_pair (fun drug => groupSumByYear (df.index.zip (df.getCol drug))) sel c hc]
    rfl
  rw [hb, lookup_groupSumByYear]

/-- C2 witness: the 2014 bar of `DrugA` on the concrete table is the sum of
its two 2014 rows. -/
theorem annual_sales_bar_eq_year_row_sum_witness :
    ("DrugA" ∈ ["DrugA", "DrugB"])
    ∧ ((2014 : Int) ∈ dfW.index.map Date.year)
    ∧ barValue (create_annual_sales dfW ["DrugA", "DrugB"]) "DrugA" 2014
        = (((dfW.index.zip (dfW.getCol "DrugA")).filter
              (fun r => r.1.year = 2014)).map Prod.snd).sum :=
  ⟨by decide, by decide,
   annual_sales_bar_eq_year_row_sum dfW ["DrugA", "DrugB"] "DrugA" 2014
     (by decide) (by decide)⟩

/-- C3: the loader resolves the date column as `datum` if present, else
`date` if present, else the first column with the fallback warning; the
resolved column's cells are what `pd.to_datetime` parses into the index;
and the categories are exactly the remaining columns in original order. -/
theorem date_column_resolution (toDT : String → Option Date) (names : List String)
    (colOf : String → List String) (ld : Loaded)
    (hnd : names.Nodup) (h : loadTable toDT names colOf = some ld) :
    ("datum" ∈ names → ld.dateCol = "datum" ∧ ld.warned = false)
    ∧ ("datum" ∉ names → "date" ∈ names → ld.dateCol = "date" ∧ ld.warned = false)
    ∧ ("datum" ∉ names → "date" ∉ names →
        names.head? = some ld.dateCol ∧ ld.warned = true)
    ∧ (colOf ld.dateCol).mapM toDT = some ld.index
    ∧ ld.categories = names.filter (fun n => n != ld.dateCol) := by
  have main : ∀ dc w, resolveDateColumn names = some (dc, w) →
      ld.dateCol = dc ∧ ld.warned = w
        ∧ (colOf ld.dateCol).mapM toDT = some ld.index
        ∧ ld.categories = names.filter (fun n => n != ld.dateCol) := by
    intro dc w hres
    unfold loadTable at h
    rw [hres] at h
    simp only [Option.some_bind] at h
    cases hm : (colOf dc).mapM toDT with
    | none => rw [hm] at h; cases h
    | some idx =>
      rw [hm] at h
      simp only [Option.map_some', Option.some.injEq] at h
      subst h
      exact ⟨rfl, rfl, hm, hnd.erase_eq_filter dc⟩
  by_cases h1 : "datum" ∈ names
  · have hres : resolveDateColumn names = some ("datum", false) := by
      simp [resolveDateColumn, h1]
    obtain ⟨hdc, hw, hmm, hcat⟩ := main _ _ hres
    exact ⟨fun _ => ⟨hdc, hw⟩, fun hd => absurd h1 hd, fun hd _ => absurd h1 hd, hmm, hcat⟩
  · by_cases h2 : "date" ∈ names
    · have hres : resolveDateColumn names = some ("date", false) := by
        simp [resolveDateColumn, h1, h2]
      obtain ⟨hdc, hw, hmm, hcat⟩ := main _ _ hres
      exact ⟨fun hd => absurd hd h1, fun _ _ => ⟨hdc, hw⟩,
        fun _ hd => absurd h2 hd, hmm, hcat⟩
    · cases names with
      | nil =>
        have hne : loadTable toDT [] colOf = none := by
          unfold loadTable resolveDateColumn
          simp
        rw [hne] at h; cases h
      | cons c rest =>
        have hres : resolveDateColumn (c :: rest) = some (c, true) := by
          simp [resolveDateColumn, h1, h2]
        obtain ⟨hdc, hw, hmm, hcat⟩ := main _ _ hres
        exact ⟨fun hd => absurd hd h1, fun _ hd => absurd hd h2,
          fun _ _ => ⟨by simp [hdc], hw⟩, hmm, hcat⟩

/-- C3 witness: a table with columns `date, DrugA, DrugB` resolves `date`
without a warning, parses the date cells into the index, and keeps
`DrugA, DrugB` as categories in order. -/
theorem date_column_resolution_witness :
    (["date", "DrugA", "DrugB"].Nodup)
    ∧ (loadTable (fun _ => some ⟨2014, 1, 1⟩) ["date", "DrugA", "DrugB"]
          (fun _ => ["2014-01-01"])
        = some ⟨"date", false, [⟨2014, 1, 1⟩], ["DrugA", "DrugB"]⟩)
    ∧ ("datum" ∉ ["date", "DrugA", "DrugB"]
        → "date" ∈ ["date", "DrugA", "DrugB"]
        → (Loaded.mk "date" false [⟨2014, 1, 1⟩] ["DrugA", "DrugB"]).dateCol = "date"
          ∧ (Loaded.mk "date" false [⟨2014, 1, 1⟩] ["DrugA", "DrugB"]).warned = false)
    ∧ (Loaded.mk "date" false [⟨2014, 1, 1⟩] ["DrugA", "DrugB"]).categories
        = ["date", "DrugA", "DrugB"].filter
            (fun n => n != (Loaded.mk "date" false [⟨2014, 1, 1⟩] ["DrugA", "DrugB"]).dateCol) :=
  ⟨by decide, by decide,
   (date_column_resolution (fun _ => some ⟨2014, 1, 1⟩) ["date", "DrugA", "DrugB"]
      (fun _ => ["2014-01-01"]) ⟨"date", false, [⟨2014, 1, 1⟩], ["DrugA", "DrugB"]⟩
      (by decide) (by decide)).2.1,
   (date_column_resolution (fun _ => some ⟨2014, 1, 1⟩) ["date", "DrugA", "DrugB"]
      (fun _ => ["2014-01-01"]) ⟨"date", false, [⟨2014, 1, 1⟩], ["DrugA", "DrugB"]⟩
      (by decide) (by decide)).2.2.2.2⟩

/-- Rendering a packed line after appending a word appends the word and its
separator space. -/
theorem renderLine_append (ws : List Str) (w : Str) :
    renderLine (ws ++ [w]) = renderLine ws ++ (w ++ [' ']) := by
  simp [renderLine]

/-- A rendered packed line is empty exactly when the line has no words
(every packed word contributes at least its separator space). -/
theorem renderLine_eq_nil (ws : List Str) : renderLine ws = [] ↔ ws = [] := by
  cases ws with
  | nil => simp [renderLine]
  | cons w rest => simp [renderLine]

/-- Simulation between the source's fold over rendered lines and the
spec-side fold over word lists: the source state is the rendered image of
the spec state. -/
theorem wrap_fold_simulates_pack (ws : List Str) :
    ∀ (packs : List (List Str)) (cur : List Str),
      ws.foldl wrapStep (packs.map renderLine, renderLine cur)
        = ((ws.foldl packStep (packs, cur)).1.map renderLine,
           renderLine (ws.foldl packStep (packs, cur)).2) := by
  induction ws with
  | nil => intro packs cur; rfl
  | cons w rest ih =>
    intro packs cur
    simp only [List.foldl_cons]
    by_cases hc : (renderLine cur).length + w.length + 1 ≤ 80
    · have hstep : wrapStep (packs.map renderLine, renderLine cur) w
          = (packs.map renderLine, renderLine (cur ++ [w])) := by
        unfold wrapStep
        rw [if_pos (by simpa [List.length_append] using hc)]
        rw [renderLine_append, List.append_assoc]
      have hstep' : packStep (packs, cur) w = (packs, cur ++ [w]) := by
        unfold packStep
        rw [if_pos hc]
      rw [hstep, hstep', ih]
    · have hstep : wrapStep (packs.map renderLine, renderLine cur) w
          = ((packs ++ [cur]).map renderLine, renderLine [w]) := by
        unfold wrapStep
        rw [if_neg (by simpa [List.length_append] using hc)]
        simp [renderLine]
      have hstep' : packStep (packs, cur) w = (packs ++ [cur], [w]) := by
        unfold packStep
        rw [if_neg hc]
      rw [hstep, hstep', ih]

/-- C5: the PDF report's description lines are exactly the whitespace-greedy
packing of the description's words at the 80-character limit, rendered one
separator space after each word. -/
theorem pdf_description_wrap_is_greedy_packing (fig : Chart) (d : Str) :
    (create_pdf_report fig d).1.descLines = (greedyPack (splitWs d)).map renderLine := by
  show wrapDescription d = (greedyPack (splitWs d)).map renderLine
  unfold wrapDescription wrapWords greedyPack
  have hsim := wrap_fold_simulates_pack (splitWs d) [] []
  simp only [List.map_nil] at hsim
  rw [show renderLine [] = [] from rfl] at hsim
  rw [hsim]
  by_cases hY : (List.foldl packStep ([], []) (splitWs d)).2 = []
  · simp [hY, renderLine]
  · have hY' : renderLine (List.foldl packStep ([], []) (splitWs d)).2 ≠ [] :=
      fun hcon => hY ((renderLine_eq_nil _).mp hcon)
    simp [hY, hY']

/-- Rendering distributes over cons: the head word, its separator space,
then the rest. -/
theorem renderLine_cons (w : Str) (ws : List Str) :
    renderLine (w :: ws) = (w ++ [' ']) ++ renderLine ws := by
  simp [renderLine]

/-- Flattening invariant of the wrapping fold: emitted lines plus the line
under construction spell out every word followed by its separator space. -/
theorem wrap_fold_flatten (ws : List Str) : ∀ (lines : List Str) (line : Str),
    (ws.foldl wrapStep (lines, line)).1.flatten ++ (ws.foldl wrapStep (lines, line)).2
      = lines.flatten ++ (line ++ renderLine ws) := by
  induction ws with
  | nil => intro lines line; simp [renderLine]
  | cons w rest ih =>
    intro lines line
    simp only [List.foldl_cons]
    by_cases hc : (line ++ w).length + 1 ≤ 80
    · rw [show wrapStep (lines, line) w = (lines, line ++ w ++ [' ']) from by
        unfold wrapStep; rw [if_pos hc]]
      rw [ih, renderLine_cons]
      simp [List.append_assoc]
    · rw [show wrapStep (lines, line) w = (lines ++ [line], w ++ [' ']) from by
        unfold wrapStep; rw [if_neg hc]]
      rw [ih, renderLine_cons]
      simp [List.append_assoc]

/-- The concatenation of the wrapped lines is every word followed by one
separator space, in the original order. -/
theorem wrapWords_flatten (ws : List Str) :
    (wrapWords ws).flatten = renderLine ws := by
  unfold wrapWords
  have h := wrap_fold_flatten ws [] []
  simp only [List.flatten_nil, List.nil_append] at h
  by_cases hY : (ws.foldl wrapStep ([], [])).2 = []
  · rw [if_pos hY]
    rw [hY, List.append_nil] at h
    exact h
  · rw [if_neg hY, List.flatten_append]
    simpa using h

/-- Scanning a whitespace-free chunk moves it (reversed) into the
accumulator. -/
theorem splitWsAux_chars (w : Str) : ∀ (cur rest : List Char),
    (∀ c ∈ w, c.isWhitespace = false) →
    splitWsAux (w ++ rest) cur = splitWsAux rest (w.reverse ++ cur) := by
  induction w with
  | nil => intro cur rest _; simp
  | cons c w' ih =>
    intro cur rest hw
    have hc : c.isWhitespace = false := hw c (List.mem_cons_self _ _)
    have hstep : splitWsAux (c :: (w' ++ rest)) cur = splitWsAux (w' ++ rest) (c :: cur) := by
      simp [splitWsAux, hc]
    rw [List.cons_append, hstep,
      ih (c :: cur) rest (fun x hx => hw x (List.mem_cons_of_mem _ hx))]
    congr 1
    simp

/-- Scanning a space flushes a non-empty accumulator as one word. -/
theorem splitWsAux_space (rest : List Char) (cur : List Char) :
    splitWsAux (' ' :: rest) cur
      = if cur = [] then splitWsAux rest [] else cur.reverse :: splitWsAux rest [] := by
  have hs : (' ' : Char).isWhitespace = true := by decide
  simp [splitWsAux, hs]

/-- Splitting the rendered form of non-empty whitespace-free words recovers
exactly those words. -/
theorem splitWs_renderLine : ∀ (words : List Str),
    (∀ w ∈ words, w ≠ [] ∧ ∀ c ∈ w, c.isWhitespace = false) →
    splitWs (renderLine words) = words := by
  intro words
  induction words with
  | nil => intro _; rfl
  | cons w rest ih =>
    intro hwf
    have hw := hwf w (List.mem_cons_self _ _)
    have hrest := fun x hx => hwf x (List.mem_cons_of_mem _ hx)
    have hform : renderLine (w :: rest) = w ++ (' ' :: renderLine rest) := by
      rw [renderLine_cons]
      simp
    rw [splitWs, hform, splitWsAux_chars w [] (' ' :: renderLine rest) hw.2,
      splitWsAux_space]
    have hne : ¬(w.reverse ++ [] = []) := by simp [hw.1]
    rw [if_neg hne]
    have : (w.reverse ++ []).reverse = w := by simp
    rw [this]
    exact congrArg (w :: ·) (ih hrest)

/-- Every word emitted by the splitter is non-empty and whitespace-free. -/
theorem splitWsAux_wf : ∀ (s : List Char) (cur : List Char),
    (∀ c ∈ cur, c.isWhitespace = false) →
    ∀ w ∈ splitWsAux s cur, w ≠ [] ∧ ∀ c ∈ w, c.isWhitespace = false := by
  intro s
  induction s with
  | nil =>
    intro cur hcur w hw
    by_cases h : cur = []
    · simp [splitWsAux, h] at hw
    · simp only [splitWsAux, if_neg h, List.mem_singleton] at hw
      subst hw
      exact ⟨by simpa using h, fun c hc => hcur c (List.mem_reverse.mp hc)⟩
  | cons c s' ih =>
    intro cur hcur w hw
    by_cases hws : c.isWhitespace = true
    · by_cases h : cur = []
      · rw [show splitWsAux (c :: s') cur = splitWsAux s' [] from by
            simp [splitWsAux, hws, h]] at hw
        exact ih [] (by simp) w hw
      · rw [show splitWsAux (c :: s') cur = cur.reverse :: splitWsAux s' [] from by
            simp [splitWsAux, hws, if_neg h]] at hw
        rcases List.mem_cons.mp hw with rfl | hw'
        · exact ⟨by simpa using h, fun x hx => hcur x (List.mem_reverse.mp hx)⟩
        · exact ih [] (by simp) w hw'
    · have hws' : c.isWhitespace = false := by
        cases hb : c.isWhitespace with
        | true => exact absurd hb hws
        | false => rfl
      rw [show splitWsAux (c :: s') cur = splitWsAux s' (c :: cur) from by
          simp [splitWsAux, hws']] at hw
      refine ih (c :: cur) ?_ w hw
      intro x hx
      rcases List.mem_cons.mp hx with rfl | hx'
      · exact hws'
      · exact hcur x hx'

/-- Width invariant of the wrapping fold: every emitted line and the line
under construction is at most 80 characters long, unless it is a single
over-long word (longer than 79 characters) with its separator space. -/
theorem wrap_fold_bound (W : List Str) (ws : List Str) :
    ∀ (lines : List Str) (line : Str),
      (∀ w ∈ ws, w ∈ W) →
      (∀ l ∈ lines, l.length ≤ 80 ∨ ∃ w, w ∈ W ∧ 79 < w.length ∧ l = w ++ [' ']) →
      (line.length ≤ 80 ∨ ∃ w, w ∈ W ∧ 79 < w.length ∧ line = w ++ [' ']) →
      (∀ l ∈ (ws.foldl wrapStep (lines, line)).1,
          l.length ≤ 80 ∨ ∃ w, w ∈ W ∧ 79 < w.length ∧ l = w ++ [' '])
      ∧ ((ws.foldl wrapStep (lines, line)).2.length ≤ 80
          ∨ ∃ w, w ∈ W ∧ 79 < w.length ∧ (ws.foldl wrapStep (lines, line)).2 = w ++ [' ']) := by
  induction ws with
  | nil => intro lines line _ hlines hline; exact ⟨hlines, hline⟩
  | cons w rest ih =>
    intro lines line hmem hlines hline
    simp only [List.foldl_cons]
    by_cases hc : (line ++ w).length + 1 ≤ 80
    · rw [show wrapStep (lines, line) w = (lines, line ++ w ++ [' ']) from by
        unfold wrapStep; rw [if_pos hc]]
      refine ih _ _ (fun x hx => hmem x (List.mem_cons_of_mem _ hx)) hlines ?_
      left
      have hlen : (line ++ w ++ [' ']).length = (line ++ w).length + 1 := by
        simp
        omega
      omega
    · rw [show wrapStep (lines, line) w = (lines ++ [line], w ++ [' ']) from by
        unfold wrapStep; rw [if_neg hc]]
      refine ih _ _ (fun x hx => hmem x (List.mem_cons_of_mem _ hx)) ?_ ?_
      · intro l hl
        rcases List.mem_append.mp hl with hl' | hl'
        · exact hlines l hl'
        · rcases List.mem_singleton.mp hl' with rfl
          exact hline
      · by_cases hw : w.length ≤ 79
        · left
          simp
          omega
        · right
          exact ⟨w, hmem w (List.mem_cons_self _ _), by omega, rfl⟩

/-- The wrapped lines obey the width bound except for over-long single
words. -/
theorem wrapWords_bound (W ws : List Str) (hsub : ∀ w ∈ ws, w ∈ W) :
    ∀ l ∈ wrapWords ws,
      l.length ≤ 80 ∨ ∃ w, w ∈ W ∧ 79 < w.length ∧ l = w ++ [' '] := by
  intro l hl
  have h := wrap_fold_bound W ws [] [] hsub (by simp) (by simp)
  unfold wrapWords at hl
  by_cases hY : (ws.foldl wrapStep ([], [])).2 = []
  · rw [if_pos hY] at hl
    exact h.1 l hl
  · rw [if_neg hY] at hl
    rcases List.mem_append.mp hl with hl' | hl'
    · exact h.1 l hl'
    · rcases List.mem_singleton.mp hl' with rfl
      exact h.2

/-- C10: wrapping preserves the word sequence (splitting the concatenated
lines by whitespace gives back exactly the description's whitespace-split
words), and every produced line is at most 80 characters long including
its trailing space, except that a single word longer than 79 characters is
kept unsplit on a line exceeding that bound. -/
theorem wrap_preserves_words_within_width (d : Str) :
    splitWs (wrapDescription d).flatten = splitWs d
    ∧ ∀ l ∈ wrapDescription d,
        l.length ≤ 80 ∨ ∃ w, w ∈ splitWs d ∧ 79 < w.length ∧ l = w ++ [' '] := by
  constructor
  · rw [show wrapDescription d = wrapWords (splitWs d) from rfl, wrapWords_flatten,
      splitWs_renderLine (splitWs d) (splitWsAux_wf d [] (by simp))]
  · exact wrapWords_bound (splitWs d) (splitWs d) (fun _ h => h)

/-- C6: whichever fallible stage raises (load/parse, render, PDF or Word
packaging), the interaction ends with the single catch-all error whose
message wraps the exception text; nothing is emitted after it, no download
link is ever shown, no Word buffer is returned, the exception text is
contained in the message, and the catch-all message is never the distinct
empty-selection validation message. -/
theorem exceptions_caught_at_single_boundary (df : Table) (noDateCol : Bool)
    (sel : List String) (ct : ChartType) (desc : Str) (f : Faults) (e : Str)
    (hfault : f.loadError = some e
      ∨ (f.loadError = none ∧ sel ≠ [] ∧
          (f.renderError = some e
           ∨ (f.renderError = none ∧
              (f.pdfError = some e
               ∨ (f.pdfError = none ∧ f.docxError = some e)))))) :
    (runInteraction df noDateCol true sel ct desc f).effects.getLast?
        = some (.showError (errMsg e))
    ∧ (∀ fn, Effect.downloadLink fn
          ∉ (runInteraction df noDateCol true sel ct desc f).effects)
    ∧ (runInteraction df noDateCol true sel ct desc f).docxBuffer = none
    ∧ e <:+ errMsg e
    ∧ (∀ e', errMsg e' ≠ selectMsg) := by
  have hdistinct : ∀ e' : Str, errMsg e' ≠ selectMsg := by
    intro e' h
    have h' : ('E' : Char) :: (str "rror processing file: " ++ e')
        = 'P' :: str "lease select at least one drug category." := h
    injection h' with h1 _
    exact absurd h1 (by decide)
  have hsuf : e <:+ errMsg e := ⟨str "Error processing file: ", rfl⟩
  rcases hfault with hl | ⟨hl, hsel, hr⟩
  · have hrun : runInteraction df noDateCol true sel ct desc f
        = ⟨[.showError (errMsg e)], [], none, none, none⟩ := by
      simp [runInteraction, hl]
    rw [hrun]
    exact ⟨rfl, fun fn h => by simp at h, rfl, hsuf, hdistinct⟩
  · rcases hr with hre | ⟨hre, hp⟩
    · have hrun : runInteraction df noDateCol true sel ct desc f
          = ⟨(if noDateCol then [Effect.showWarning warnMsg] else [])
                ++ [.showError (errMsg e)],
             [ct], none, none, none⟩ := by
        simp [runInteraction, hl, hsel, hre]
      rw [hrun]
      refine ⟨?_, ?_, rfl, hsuf, hdistinct⟩
      · cases noDateCol <;> rfl
      · intro fn h
        cases noDateCol <;> simp at h
    · rcases hp with hpe | ⟨hpe, hde⟩
      · have hrun : runInteraction df noDateCol true sel ct desc f
            = ⟨((if noDateCol then [Effect.showWarning warnMsg] else [])
                  ++ [.showChart (dispatchRenderer ct df sel)]) ++ [.showError (errMsg e)],
               [ct], some (dispatchRenderer ct df sel), none, none⟩ := by
          simp [runInteraction, hl, hsel, hre, hpe]
        rw [hrun]
        refine ⟨?_, ?_, rfl, hsuf, hdistinct⟩
        · cases noDateCol <;> rfl
        · intro fn h
          cases noDateCol <;> simp at h
      · have hrun : runInteraction df noDateCol true sel ct desc f
            = ⟨((if noDateCol then [Effect.showWarning warnMsg] else [])
                  ++ [.showChart (dispatchRenderer ct df sel)]) ++ [.showError (errMsg e)],
               [ct], some (dispatchRenderer ct df sel),
               some (create_pdf_report (dispatchRenderer ct df sel) desc).1, none⟩ := by
          simp [runInteraction, hl, hsel, hre, hpe, hde]
        rw [hrun]
        refine ⟨?_, ?_, rfl, hsuf, hdistinct⟩
        · cases noDateCol <;> rfl
        · intro fn h
          cases noDateCol <;> simp at h

/-- C6 witness: a load-stage exception with text `boom` on the concrete
table surfaces as the catch-all error and yields no download link and no
Word buffer. -/
theorem exceptions_caught_at_single_boundary_witness :
    ((⟨some (str "boom"), none, none, none⟩ : Faults).loadError = some (str "boom"))
    ∧ ((runInteraction dfW false true ["DrugA"] .timeSeries (str "d")
          ⟨some (str "boom"), none, none, none⟩).effects.getLast?
        = some (.showError (errMsg (str "boom")))
      ∧ (∀ fn, Effect.downloadLink fn
            ∉ (runInteraction dfW false true ["DrugA"] .timeSeries (str "d")
                ⟨some (str "boom"), none, none, none⟩).effects)
      ∧ (runInteraction dfW false true ["DrugA"] .timeSeries (str "d")
            ⟨some (str "boom"), none, none, none⟩).docxBuffer = none
      ∧ str "boom" <:+ errMsg (str "boom")
      ∧ (∀ e', errMsg e' ≠ selectMsg)) :=
  ⟨rfl,
   exceptions_caught_at_single_boundary dfW false ["DrugA"] .timeSeries (str "d")
     ⟨some (str "boom"), none, none, none⟩ (str "boom") (Or.inl rfl)⟩
